import Mathlib

set_option maxHeartbeats 1000000

/-!
Verification development for the helix-daemon session multiplexer
(crate `helix-daemon`: `proto.rs`, `channel.rs`, `server.rs`, `session.rs`,
`client.rs`).  The Rust code is shallowly embedded: machine integers are
`Nat` values reduced modulo an explicit power of two where overflow matters,
byte buffers are `List Nat`, async socket operations become explicit state
transitions parameterised by the outcome of the underlying I/O, and panics
(`unwrap`, `assert!`) are modelled as `Option.none` results.
-/

/-! ## Little-endian fixed-width integers

The wire format is bincode 1.x with its default configuration: fixed-width
integer encoding, little endian.  `leBytes k n` is the `k`-byte little-endian
encoding of `n`; `leVal` is its inverse on byte lists.
-/

def leBytes : Nat → Nat → List Nat
  | 0, _ => []
  | k + 1, n => n % 256 :: leBytes k (n / 256)

def leVal : List Nat → Nat
  | [] => 0
  | b :: bs => b + 256 * leVal bs

def u32le (n : Nat) : List Nat := leBytes 4 n

def u64le (n : Nat) : List Nat := leBytes 8 n

theorem leBytes_length : ∀ (k n : Nat), (leBytes k n).length = k := by
  intro k
  induction k with
  | zero => intro n; rfl
  | succ k ih => intro n; simp [leBytes, ih]

theorem leVal_leBytes : ∀ (k n : Nat), n < 256 ^ k → leVal (leBytes k n) = n := by
  intro k
  induction k with
  | zero =>
      intro n h
      have h0 : n = 0 := Nat.lt_one_iff.mp (by simpa using h)
      simp [leBytes, leVal, h0]
  | succ k ih =>
      intro n h
      have hmul : n < 256 * 256 ^ k := by
        have := h
        rwa [pow_succ, Nat.mul_comm] at this
      have hd : n / 256 < 256 ^ k := Nat.div_lt_of_lt_mul hmul
      simp only [leBytes, leVal, ih _ hd]
      exact Nat.mod_add_div n 256

/-! ## Byte-stream readers (the deserialization side)

A reader consumes a prefix of the byte list and returns the decoded value
together with the remaining bytes, or `none` on a malformed stream.
-/

def readBytes (k : Nat) (s : List Nat) : Option (List Nat × List Nat) :=
  if k ≤ s.length then some (s.take k, s.drop k) else none

def readU32 (s : List Nat) : Option (Nat × List Nat) :=
  (readBytes 4 s).map fun p => (leVal p.1, p.2)

def readU64 (s : List Nat) : Option (Nat × List Nat) :=
  (readBytes 8 s).map fun p => (leVal p.1, p.2)

def serBool (b : Bool) : List Nat := [cond b 1 0]

def readBool (s : List Nat) : Option (Bool × List Nat) :=
  match s with
  | 0 :: rest => some (false, rest)
  | 1 :: rest => some (true, rest)
  | _ => none

theorem readBytes_append (l rest : List Nat) :
    readBytes l.length (l ++ rest) = some (l, rest) := by
  simp [readBytes, List.take_left, List.drop_left]

theorem readU32_append (n : Nat) (rest : List Nat) (h : n < 2 ^ 32) :
    readU32 (u32le n ++ rest) = some (n, rest) := by
  have hlen := leBytes_length 4 n
  have hrb := readBytes_append (leBytes 4 n) rest
  rw [hlen] at hrb
  have hval : leVal (leBytes 4 n) = n := by
    apply leVal_leBytes
    have : (256 : Nat) ^ 4 = 2 ^ 32 := by norm_num
    omega
  simp [readU32, u32le, hrb, hval]

theorem readU64_append (n : Nat) (rest : List Nat) (h : n < 2 ^ 64) :
    readU64 (u64le n ++ rest) = some (n, rest) := by
  have hlen := leBytes_length 8 n
  have hrb := readBytes_append (leBytes 8 n) rest
  rw [hlen] at hrb
  have hval : leVal (leBytes 8 n) = n := by
    apply leVal_leBytes
    have : (256 : Nat) ^ 8 = 2 ^ 64 := by norm_num
    omega
  simp [readU64, u64le, hrb, hval]

theorem readBool_append (b : Bool) (rest : List Nat) :
    readBool (serBool b ++ rest) = some (b, rest) := by
  cases b <;> rfl

/-! ## Protocol data model (`proto.rs`)

`SessionId` is a newtype over `u64`; `Str` (`smallstr::SmallString<[u8; 32]>`)
serializes through serde as a `str`, i.e. as its UTF-8 bytes, so we model it
as the byte list.  `SystemTime` serializes through serde as the struct
`(secs_since_epoch : u64, nanos_since_epoch : u32)`.  bincode encodes enum
variants as a little-endian `u32` variant index in declaration order,
followed by the fields in order; a `Vec` is a `u64` length followed by the
elements.  The source field named `alias` is called `label` here because
`alias` is a reserved word in this development's ambient syntax.
-/

structure SessionId where
  val : Nat
deriving DecidableEq

abbrev Str := List Nat

structure SysTime where
  secs : Nat
  nanos : Nat
deriving DecidableEq

inductive Request
  | newSession
  | attachSession (sid : SessionId)
  | attachSessionByAlias (label : Str)
  | killSession (sid : SessionId) (force : Bool)
  | killSessionByAlias (label : Str) (force : Bool)
  | aliasSession (sid : SessionId) (label : Str)
  | listSessions
  | stopServer (force : Bool)
deriving DecidableEq

abbrev Entry := SessionId × SysTime × Str

inductive Response
  | newSession (sid : SessionId)
  | listSessions (sessions : List Entry)
  | ok
  | err
deriving DecidableEq

inductive SessionRequest
  | terminate
  | detach
deriving DecidableEq

inductive SessionResponse
  | terminated (forced : Bool)
  | err
  | ok
deriving DecidableEq

/-! ### Serializers (bincode 1.x, fixint little-endian) -/

def serSessionId (s : SessionId) : List Nat := u64le s.val

def serStr (a : Str) : List Nat := u64le a.length ++ a

def serSysTime (t : SysTime) : List Nat := u64le t.secs ++ u32le t.nanos

def serEntry (e : Entry) : List Nat :=
  serSessionId e.1 ++ serSysTime e.2.1 ++ serStr e.2.2

def serSeq {α : Type} (f : α → List Nat) : List α → List Nat
  | [] => []
  | x :: xs => f x ++ serSeq f xs

def serVec {α : Type} (f : α → List Nat) (l : List α) : List Nat :=
  u64le l.length ++ serSeq f l

def serRequest : Request → List Nat
  | .newSession => u32le 0
  | .attachSession sid => u32le 1 ++ serSessionId sid
  | .attachSessionByAlias a => u32le 2 ++ serStr a
  | .killSession sid force => u32le 3 ++ serSessionId sid ++ serBool force
  | .killSessionByAlias a force => u32le 4 ++ serStr a ++ serBool force
  | .aliasSession sid a => u32le 5 ++ serSessionId sid ++ serStr a
  | .listSessions => u32le 6
  | .stopServer force => u32le 7 ++ serBool force

def serResponse : Response → List Nat
  | .newSession sid => u32le 0 ++ serSessionId sid
  | .listSessions l => u32le 1 ++ serVec serEntry l
  | .ok => u32le 2
  | .err => u32le 3

def serSessionRequest : SessionRequest → List Nat
  | .terminate => u32le 0
  | .detach => u32le 1

def serSessionResponse : SessionResponse → List Nat
  | .terminated forced => u32le 0 ++ serBool forced
  | .err => u32le 1
  | .ok => u32le 2

/-! ### Readers -/

def readSessionId (s : List Nat) : Option (SessionId × List Nat) :=
  (readU64 s).map fun p => (SessionId.mk p.1, p.2)

def readStr (s : List Nat) : Option (Str × List Nat) :=
  (readU64 s).bind fun p => readBytes p.1 p.2

def readSysTime (s : List Nat) : Option (SysTime × List Nat) :=
  (readU64 s).bind fun p =>
    (readU32 p.2).map fun q => (SysTime.mk p.1 q.1, q.2)

def readEntry (s : List Nat) : Option (Entry × List Nat) :=
  (readSessionId s).bind fun p =>
    (readSysTime p.2).bind fun q =>
      (readStr q.2).map fun r => ((p.1, q.1, r.1), r.2)

def readCount {α : Type} (p : List Nat → Option (α × List Nat)) :
    Nat → List Nat → Option (List α × List Nat)
  | 0, s => some ([], s)
  | k + 1, s =>
    (p s).bind fun a =>
      (readCount p k a.2).map fun l => (a.1 :: l.1, l.2)

def readVec {α : Type} (p : List Nat → Option (α × List Nat))
    (s : List Nat) : Option (List α × List Nat) :=
  (readU64 s).bind fun n => readCount p n.1 n.2

def readRequest (s : List Nat) : Option (Request × List Nat) :=
  (readU32 s).bind fun t =>
    match t.1 with
    | 0 => some (.newSession, t.2)
    | 1 => (readSessionId t.2).map fun p => (.attachSession p.1, p.2)
    | 2 => (readStr t.2).map fun p => (.attachSessionByAlias p.1, p.2)
    | 3 =>
      (readSessionId t.2).bind fun p =>
        (readBool p.2).map fun q => (.killSession p.1 q.1, q.2)
    | 4 =>
      (readStr t.2).bind fun p =>
        (readBool p.2).map fun q => (.killSessionByAlias p.1 q.1, q.2)
    | 5 =>
      (readSessionId t.2).bind fun p =>
        (readStr p.2).map fun q => (.aliasSession p.1 q.1, q.2)
    | 6 => some (.listSessions, t.2)
    | 7 => (readBool t.2).map fun p => (.stopServer p.1, p.2)
    | _ => none

def readResponse (s : List Nat) : Option (Response × List Nat) :=
  (readU32 s).bind fun t =>
    match t.1 with
    | 0 => (readSessionId t.2).map fun p => (.newSession p.1, p.2)
    | 1 => (readVec readEntry t.2).map fun p => (.listSessions p.1, p.2)
    | 2 => some (.ok, t.2)
    | 3 => some (.err, t.2)
    | _ => none

def readSessionRequest (s : List Nat) : Option (SessionRequest × List Nat) :=
  (readU32 s).bind fun t =>
    match t.1 with
    | 0 => some (.terminate, t.2)
    | 1 => some (.detach, t.2)
    | _ => none

def readSessionResponse (s : List Nat) : Option (SessionResponse × List Nat) :=
  (readU32 s).bind fun t =>
    match t.1 with
    | 0 => (readBool t.2).map fun p => (.terminated p.1, p.2)
    | 1 => some (.err, t.2)
    | 2 => some (.ok, t.2)
    | _ => none

/-- Top-level deserialization of one datagram.  `bincode::deserialize` (used
by `Channel::recv`) is configured with `allow_trailing_bytes`, so the value
is returned even if bytes remain. -/
def desRequest (s : List Nat) : Option Request := (readRequest s).map Prod.fst

def desResponse (s : List Nat) : Option Response := (readResponse s).map Prod.fst

def desSessionRequest (s : List Nat) : Option SessionRequest :=
  (readSessionRequest s).map Prod.fst

def desSessionResponse (s : List Nat) : Option SessionResponse :=
  (readSessionResponse s).map Prod.fst

/-! ### Well-formedness: the ranges guaranteed by the Rust types

`u64` fields are below `2 ^ 64`, a `SystemTime` has nanoseconds below `10^9`
(and a `Vec`/string length is a `usize`, at most `u64`). -/

def wfSessionId (s : SessionId) : Bool := decide (s.val < 2 ^ 64)

def wfStr (a : Str) : Bool := decide (a.length < 2 ^ 64)

def wfSysTime (t : SysTime) : Bool :=
  decide (t.secs < 2 ^ 64) && decide (t.nanos < 1000000000)

def wfEntry (e : Entry) : Bool :=
  wfSessionId e.1 && wfSysTime e.2.1 && wfStr e.2.2

def wfRequest : Request → Bool
  | .newSession => true
  | .attachSession sid => wfSessionId sid
  | .attachSessionByAlias a => wfStr a
  | .killSession sid _ => wfSessionId sid
  | .killSessionByAlias a _ => wfStr a
  | .aliasSession sid a => wfSessionId sid && wfStr a
  | .listSessions => true
  | .stopServer _ => true

def wfResponse : Response → Bool
  | .newSession sid => wfSessionId sid
  | .listSessions l => decide (l.length < 2 ^ 64) && l.all wfEntry
  | .ok => true
  | .err => true

/-! ### Round-trip lemmas -/

theorem readSessionId_append (x : SessionId) (rest : List Nat)
    (h : wfSessionId x = true) :
    readSessionId (serSessionId x ++ rest) = some (x, rest) := by
  have hv : x.val < 2 ^ 64 := by simpa [wfSessionId] using h
  simp [readSessionId, serSessionId, readU64_append _ _ hv]

theorem readStr_append (a : Str) (rest : List Nat) (h : wfStr a = true) :
    readStr (serStr a ++ rest) = some (a, rest) := by
  have hv : a.length < 2 ^ 64 := by simpa [wfStr] using h
  simp [readStr, serStr, List.append_assoc, readU64_append _ _ hv,
    readBytes_append]

theorem readSysTime_append (t : SysTime) (rest : List Nat)
    (h : wfSysTime t = true) :
    readSysTime (serSysTime t ++ rest) = some (t, rest) := by
  have hs : t.secs < 2 ^ 64 ∧ t.nanos < 1000000000 := by
    simpa [wfSysTime] using h
  have hn : t.nanos < 2 ^ 32 := by omega
  simp [readSysTime, serSysTime, List.append_assoc,
    readU64_append _ _ hs.1, readU32_append _ _ hn]

theorem readEntry_append (e : Entry) (rest : List Nat) (h : wfEntry e = true) :
    readEntry (serEntry e ++ rest) = some (e, rest) := by
  have hs : (wfSessionId e.1 = true ∧ wfSysTime e.2.1 = true) ∧ wfStr e.2.2 = true := by
    simpa [wfEntry, Bool.and_eq_true] using h
  simp [readEntry, serEntry, List.append_assoc,
    readSessionId_append _ _ hs.1.1, readSysTime_append _ _ hs.1.2,
    readStr_append _ _ hs.2]

theorem readCount_serSeq {α : Type} (p : List Nat → Option (α × List Nat))
    (f : α → List Nat) (l : List α) (rest : List Nat)
    (hp : ∀ a ∈ l, ∀ r, p (f a ++ r) = some (a, r)) :
    readCount p l.length (serSeq f l ++ rest) = some (l, rest) := by
  induction l with
  | nil => simp [readCount, serSeq]
  | cons x xs ih =>
      have hx := hp x (by simp) (serSeq f xs ++ rest)
      have hxs : ∀ a ∈ xs, ∀ r, p (f a ++ r) = some (a, r) := by
        intro a ha r
        exact hp a (List.mem_cons_of_mem _ ha) r
      simp [serSeq, readCount, List.append_assoc, hx, ih hxs]

theorem readVec_serVec {α : Type} (p : List Nat → Option (α × List Nat))
    (f : α → List Nat) (l : List α) (rest : List Nat)
    (hlen : l.length < 2 ^ 64)
    (hp : ∀ a ∈ l, ∀ r, p (f a ++ r) = some (a, r)) :
    readVec p (serVec f l ++ rest) = some (l, rest) := by
  simp [readVec, serVec, List.append_assoc, readU64_append _ _ hlen,
    readCount_serSeq p f l rest hp]

theorem readRequest_append (r : Request) (rest : List Nat)
    (h : wfRequest r = true) :
    readRequest (serRequest r ++ rest) = some (r, rest) := by
  cases r with
  | newSession =>
      simp [serRequest, readRequest, readU32_append 0 rest (by norm_num)]
  | attachSession sid =>
      simp only [serRequest, List.append_assoc]
      simp [readRequest, readU32_append 1 _ (by norm_num),
        readSessionId_append _ _ (by simpa [wfRequest] using h)]
  | attachSessionByAlias a =>
      simp only [serRequest, List.append_assoc]
      simp [readRequest, readU32_append 2 _ (by norm_num),
        readStr_append _ _ (by simpa [wfRequest] using h)]
  | killSession sid force =>
      simp only [serRequest, List.append_assoc]
      simp [readRequest, readU32_append 3 _ (by norm_num),
        readSessionId_append _ _ (by simpa [wfRequest] using h),
        readBool_append]
  | killSessionByAlias a force =>
      simp only [serRequest, List.append_assoc]
      simp [readRequest, readU32_append 4 _ (by norm_num),
        readStr_append _ _ (by simpa [wfRequest] using h),
        readBool_append]
  | aliasSession sid a =>
      have hs : wfSessionId sid = true ∧ wfStr a = true := by
        simpa [wfRequest, Bool.and_eq_true] using h
      simp only [serRequest, List.append_assoc]
      simp [readRequest, readU32_append 5 _ (by norm_num),
        readSessionId_append _ _ hs.1, readStr_append _ _ hs.2]
  | listSessions =>
      simp [serRequest, readRequest, readU32_append 6 rest (by norm_num)]
  | stopServer force =>
      simp only [serRequest, List.append_assoc]
      simp [readRequest, readU32_append 7 _ (by norm_num), readBool_append]

theorem readResponse_append (r : Response) (rest : List Nat)
    (h : wfResponse r = true) :
    readResponse (serResponse r ++ rest) = some (r, rest) := by
  cases r with
  | newSession sid =>
      simp only [serResponse, List.append_assoc]
      simp [readResponse, readU32_append 0 _ (by norm_num),
        readSessionId_append _ _ (by simpa [wfResponse] using h)]
  | listSessions l =>
      have hs : l.length < 2 ^ 64 ∧ l.all wfEntry = true := by
        simpa [wfResponse, Bool.and_eq_true] using h
      have hp : ∀ e ∈ l, ∀ r, readEntry (serEntry e ++ r) = some (e, r) := by
        intro e he r
        exact readEntry_append e r (by
          have := List.all_eq_true.mp hs.2 e he
          simpa using this)
      simp only [serResponse, List.append_assoc]
      simp [readResponse, readU32_append 1 _ (by norm_num),
        readVec_serVec readEntry serEntry l rest hs.1 hp]
  | ok => simp [serResponse, readResponse, readU32_append 2 rest (by norm_num)]
  | err => simp [serResponse, readResponse, readU32_append 3 rest (by norm_num)]

theorem readSessionRequest_append (r : SessionRequest) (rest : List Nat) :
    readSessionRequest (serSessionRequest r ++ rest) = some (r, rest) := by
  cases r with
  | terminate =>
      simp [serSessionRequest, readSessionRequest,
        readU32_append 0 rest (by norm_num)]
  | detach =>
      simp [serSessionRequest, readSessionRequest,
        readU32_append 1 rest (by norm_num)]

theorem readSessionResponse_append (r : SessionResponse) (rest : List Nat) :
    readSessionResponse (serSessionResponse r ++ rest) = some (r, rest) := by
  cases r with
  | terminated forced =>
      simp only [serSessionResponse, List.append_assoc]
      simp [readSessionResponse, readU32_append 0 _ (by norm_num),
        readBool_append]
  | err =>
      simp [serSessionResponse, readSessionResponse,
        readU32_append 1 rest (by norm_num)]
  | ok =>
      simp [serSessionResponse, readSessionResponse,
        readU32_append 2 rest (by norm_num)]

/-- C5: serializing any Request, Response, SessionRequest or SessionResponse
value and deserializing the resulting bytes reconstructs the original logical
value, and the encoding is deterministic: equal values serialize to equal
byte sequences. -/
theorem proto_roundtrip_deterministic :
    (∀ r : Request, wfRequest r = true → desRequest (serRequest r) = some r)
  ∧ (∀ p : Response, wfResponse p = true → desResponse (serResponse p) = some p)
  ∧ (∀ q : SessionRequest, desSessionRequest (serSessionRequest q) = some q)
  ∧ (∀ p : SessionResponse, desSessionResponse (serSessionResponse p) = some p)
  ∧ (∀ a b : Request, a = b → serRequest a = serRequest b)
  ∧ (∀ a b : Response, a = b → serResponse a = serResponse b)
  ∧ (∀ a b : SessionRequest, a = b → serSessionRequest a = serSessionRequest b)
  ∧ (∀ a b : SessionResponse, a = b → serSessionResponse a = serSessionResponse b) := by
  refine ⟨?_, ?_, ?_, ?_, ?_, ?_, ?_, ?_⟩
  · intro r h
    have := readRequest_append r [] h
    simp [desRequest, List.append_nil] at this ⊢
    simp [this]
  · intro p h
    have := readResponse_append p [] h
    simp [desResponse, List.append_nil] at this ⊢
    simp [this]
  · intro q
    have := readSessionRequest_append q []
    simp [desSessionRequest, List.append_nil] at this ⊢
    simp [this]
  · intro p
    have := readSessionResponse_append p []
    simp [desSessionResponse, List.append_nil] at this ⊢
    simp [this]
  · intro a b h; rw [h]
  · intro a b h; rw [h]
  · intro a b h; rw [h]
  · intro a b h; rw [h]

/-- Witness for C5: the round trip evaluated at concrete messages of each of
the four types. -/
theorem proto_roundtrip_deterministic_witness :
    desRequest (serRequest (Request.killSession (SessionId.mk 5) true))
      = some (Request.killSession (SessionId.mk 5) true)
  ∧ desResponse
        (serResponse (Response.listSessions
          [(SessionId.mk 1, SysTime.mk 100 7, [104, 105])]))
      = some (Response.listSessions
          [(SessionId.mk 1, SysTime.mk 100 7, [104, 105])])
  ∧ desSessionRequest (serSessionRequest SessionRequest.detach)
      = some SessionRequest.detach
  ∧ desSessionResponse (serSessionResponse (SessionResponse.terminated true))
      = some (SessionResponse.terminated true) :=
  ⟨proto_roundtrip_deterministic.1 _ (by decide),
   proto_roundtrip_deterministic.2.1 _ (by decide),
   proto_roundtrip_deterministic.2.2.1 _,
   proto_roundtrip_deterministic.2.2.2.1 _⟩

/-! ## Channel scratch buffer (`channel.rs`, `Channel<Tx, Rx>`)

`Channel` holds `buf: std::io::Cursor<[u8; 1024]>`.  `send` runs
`bincode::serialize_into(&mut self.buf, msg)` — which writes the encoding at
the cursor's current position and advances it — and then transmits
`buf.get_ref()[..buf.position()]` as one datagram.  Nothing ever rewinds the
cursor.  `recv` reads a datagram into `buf.get_mut()` (overwriting bytes from
index 0) and leaves the cursor position untouched.  The state is the array
contents plus the cursor position. -/

def bufCap : Nat := 1024

structure ChanBuf where
  data : List Nat
  pos : Nat
deriving DecidableEq

def ChanBuf.new : ChanBuf := ChanBuf.mk (List.replicate bufCap 0) 0

/-- Overwrite `data` starting at index `pos` with `bytes`. -/
def writeAt (data : List Nat) (pos : Nat) (bytes : List Nat) : List Nat :=
  data.take pos ++ bytes ++ data.drop (pos + bytes.length)

/-- `Channel::send` given the bincode encoding `enc` of the message: on
success returns the transmitted datagram payload and the new buffer state;
`none` when the serialization runs past the end of the fixed array (the
`Cursor` write error propagated by `?`). -/
def ChanBuf.send (st : ChanBuf) (enc : List Nat) : Option (List Nat × ChanBuf) :=
  if st.pos + enc.length ≤ bufCap then
    some ((writeAt st.data st.pos enc).take (st.pos + enc.length),
      ChanBuf.mk (writeAt st.data st.pos enc) (st.pos + enc.length))
  else none

/-- `Channel::recv` filling the scratch array with an incoming datagram: the
bytes are overwritten from index 0 but the cursor position is unchanged. -/
def ChanBuf.recvFill (st : ChanBuf) (incoming : List Nat) : ChanBuf :=
  ChanBuf.mk (writeAt st.data 0 incoming) st.pos

/-- C1: `Channel::send` does not rewind the cursor between sends, so on a
fresh channel the first datagram is exactly the encoding of the message, but
the second send's datagram is the first encoding followed by the second —
not the serialized encoding of the message alone, contradicting the claim
for the second and later sends. -/
theorem channel_send_second_datagram_stale :
    (ChanBuf.send ChanBuf.new (serSessionResponse SessionResponse.ok)).map Prod.fst
      = some (serSessionResponse SessionResponse.ok)
  ∧ ((ChanBuf.send ChanBuf.new (serSessionResponse SessionResponse.ok)).bind
        fun r => ChanBuf.send r.2 (serSessionResponse SessionResponse.ok)).map Prod.fst
      = some (serSessionResponse SessionResponse.ok
          ++ serSessionResponse SessionResponse.ok)
  ∧ serSessionResponse SessionResponse.ok ++ serSessionResponse SessionResponse.ok
      ≠ serSessionResponse SessionResponse.ok := by
  refine ⟨by decide, by decide, by decide⟩

/-! ## Detachable channel state (`channel.rs`, `DetachableChannel<Tx, Rx>`)

Only the fields relevant to the detach protocol are modelled: whether the
inner `Option<Channel>` is present (`attached`) and the `detaching` flag.
The buffered bytes play no role in these claims. -/

structure DChan where
  attached : Bool
  detaching : Bool
deriving DecidableEq

/-- `DetachableChannel::shutdown`: takes the inner channel if present, and in
that case sets `detaching = true` (the socket shutdown result is returned but
its failure changes no state). -/
def DChan.shutdown (c : DChan) : DChan :=
  if c.attached then DChan.mk false true else c

/-- `DetachableChannel::detach`: mark only. -/
def DChan.detach (c : DChan) : DChan := DChan.mk c.attached true

/-- Outcome of `DetachableChannel::recv` when the socket read returns
`Ok(0)` (peer closed). -/
inductive RecvOut
  | closedNone
  | errUnexpected
deriving DecidableEq

/-- The `Ok(0)` arm of `DetachableChannel::recv` for an attached channel:
it first calls `self.shutdown()` and then tests `self.detaching`, returning
`Ok(None)` (and clearing the flag) if set, else the "unexpected disconnect"
error. -/
def DChan.recvPeerClose (c : DChan) : RecvOut × DChan :=
  let c1 := c.shutdown
  if c1.detaching then (RecvOut.closedNone, DChan.mk c1.attached false)
  else (RecvOut.errUnexpected, c1)

/-- C2: a peer close observed while `detaching` is false does NOT produce the
"unexpected disconnect" error: `recv`'s `Ok(0)` arm calls `shutdown()`, which
itself sets `detaching` before the flag is tested, so the call returns
`Ok(None)` and resets the flag.  The error branch is unreachable for an
attached channel. -/
theorem detachable_recv_unexpected_close_returns_none :
    DChan.recvPeerClose (DChan.mk true false)
      = (RecvOut.closedNone, DChan.mk false false)
  ∧ (DChan.recvPeerClose (DChan.mk true false)).1 ≠ RecvOut.errUnexpected := by
  refine ⟨by decide, by decide⟩

/-! ## Session task (`session.rs`)

`Session::terminate` is straight-line code; we embed it as a function from
the session state (its detachable channel and `run` flag) and the
termination reason to the ordered list of externally visible steps, the new
state and the returned value.  The two fallible sends (the final
`Terminated` response toward the client and the `SessionEvent` toward the
server) are parameterised by their success, which the source only logs. -/

structure SessState where
  channel : DChan
  run : Bool
deriving DecidableEq

inductive TStep
  | sendTerminated (forced : Bool)
  | detachMark
  | shutdownSocket
  | eventTerminated (expected : Bool)
deriving DecidableEq

def reasonOk : Except String Unit → Bool
  | Except.ok _ => true
  | Except.error _ => false

/-- `Session::terminate(reason)`: compute `expected = reason.is_ok()`,
best-effort send `SessionResponse::Terminated(!expected)` to the client,
`channel.detach()`, `channel.shutdown()` (failure logged), send
`SessionEvent::Terminated{expected}` to the server (failure logged), clear
`run`, return `reason`. -/
def Session.terminate (st : SessState) (reason : Except String Unit)
    (clientSendOk eventSendOk : Bool) :
    List TStep × SessState × Except String Unit :=
  let expected := reasonOk reason
  let c1 := st.channel.detach
  let c2 := c1.shutdown
  ([TStep.sendTerminated (!expected), TStep.detachMark, TStep.shutdownSocket,
    TStep.eventTerminated expected],
   SessState.mk c2 false, reason)

/-- C6: for every termination reason, `Session::terminate` performs exactly
the claimed steps in order — best-effort `Terminated(!expected)` toward the
client, detach mark, socket shutdown, `Terminated{expected}` event toward the
server — clears the run flag, leaves the channel detached, and returns the
original reason; the outcome is independent of whether either send
succeeded. -/
theorem session_terminate_steps (st : SessState) (reason : Except String Unit)
    (clientSendOk eventSendOk : Bool) :
    Session.terminate st reason clientSendOk eventSendOk
      = ([TStep.sendTerminated (!(reasonOk reason)), TStep.detachMark,
          TStep.shutdownSocket, TStep.eventTerminated (reasonOk reason)],
         SessState.mk (DChan.mk false true) false, reason) := by
  cases st with
  | mk channel run =>
      cases channel with
      | mk attached detaching =>
          cases attached <;>
            simp [Session.terminate, DChan.detach, DChan.shutdown]

/-! ## Client session loop (`client.rs`, `SessionClient`)

The loop selects over signals and inbound channel messages; here we model the
channel-message path: the sequence of `recv` outcomes the loop observes.
`SessionClient::terminate` maps the loop-ending reason to the exit status. -/

inductive ClientIn
  | msg (m : SessionResponse)
  | chanNone
  | chanErr (e : String)
deriving DecidableEq

/-- `SessionClient::terminate(reason)`: `Ok(forced)` shuts the socket and
yields exit status 1 if forced else 0; an error is propagated. -/
def SessionClient.terminate : Except String Bool → Except String Nat
  | Except.ok forced => Except.ok (if forced then 1 else 0)
  | Except.error e => Except.error e

/-- The inbound-message arm of `SessionClient::run`, iterated over a list of
`recv` outcomes: `Ok(None)` continues, `Terminated(forced)` ends the loop via
`terminate(Ok(forced))`, `Ok`/`Err` are handled as no-ops, a receive error
ends the loop via `terminate(Err(e))`.  `none` means the list was exhausted
with the loop still running. -/
def clientLoop : List ClientIn → Option (Except String Nat)
  | [] => none
  | ClientIn.chanNone :: rest => clientLoop rest
  | ClientIn.msg (SessionResponse.terminated forced) :: _ =>
      some (SessionClient.terminate (Except.ok forced))
  | ClientIn.msg SessionResponse.ok :: rest => clientLoop rest
  | ClientIn.msg SessionResponse.err :: rest => clientLoop rest
  | ClientIn.chanErr e :: _ =>
      some (SessionClient.terminate (Except.error e))

/-- Inputs that keep the client loop running. -/
def steadyIn : ClientIn → Bool
  | ClientIn.chanNone => true
  | ClientIn.msg SessionResponse.ok => true
  | ClientIn.msg SessionResponse.err => true
  | _ => false

/-- C8: in the attached client session loop, the first
`SessionResponse::Terminated(forced)` after any steady-state traffic ends the
loop with exit status 1 if `forced` and 0 otherwise. -/
theorem client_terminated_exit_code (pre : List ClientIn) (forced : Bool)
    (rest : List ClientIn) (h : pre.all steadyIn = true) :
    clientLoop (pre ++ ClientIn.msg (SessionResponse.terminated forced) :: rest)
      = some (Except.ok (if forced then 1 else 0)) := by
  induction pre with
  | nil => cases forced <;> rfl
  | cons x xs ih =>
      have hx : steadyIn x = true ∧ xs.all steadyIn = true := by
        simpa [List.all_cons, Bool.and_eq_true] using h
      have hrec := ih hx.2
      cases x with
      | chanNone => simpa [clientLoop] using hrec
      | chanErr e => simp [steadyIn] at hx
      | msg m =>
          cases m with
          | terminated f => simp [steadyIn] at hx
          | ok => simpa [clientLoop] using hrec
          | err => simpa [clientLoop] using hrec

/-- Witness for C8: after a no-op `Ok` and a spurious wakeup, a forced
`Terminated` yields exit status 1. -/
theorem client_terminated_exit_code_witness :
    clientLoop [ClientIn.msg SessionResponse.ok, ClientIn.chanNone,
        ClientIn.msg (SessionResponse.terminated true)]
      = some (Except.ok 1) :=
  client_terminated_exit_code
    [ClientIn.msg SessionResponse.ok, ClientIn.chanNone] true [] (by decide)

/-! ## Server (`server.rs`)

The registry `sessions: HashMap<SessionId, SessionHandle>` is modelled as an
association list in the map's iteration order; a `SessionHandle` keeps the
fields the claims touch (`detached` and the alias, named `label` here).
`next_sid` is a `u64`, so increments are taken modulo `2 ^ 64`. -/

structure Handle where
  detached : Bool
  label : Str
deriving DecidableEq

abbrev Registry := List (Nat × Handle)

/-- Keyed lookup (`HashMap::get_mut`). -/
def lookupSid : Registry → Nat → Option Handle
  | [], _ => none
  | (s, h) :: rest, sid => if s = sid then some h else lookupSid rest sid

/-- In-place update of the entry with the given key. -/
def updateSid (reg : Registry) (sid : Nat) (h : Handle) : Registry :=
  reg.map fun p => if p.1 = sid then (sid, h) else p

/-! ### SessionId allocation (C4)

`Server::new` sets `next_sid: u64 = 0`; each `NewSession` request executes
`self.next_sid += 1; let sid = SessionId(self.next_sid);`.  `nextSidAfter n`
is the counter after `n` requests; `sidAt n` the sid allocated by the `n`-th
request (1-indexed). -/

def u64Mod : Nat := 2 ^ 64

def nextSidAfter : Nat → Nat
  | 0 => 0
  | n + 1 => (nextSidAfter n + 1) % u64Mod

def sidAt (n : Nat) : Nat := nextSidAfter n

theorem nextSidAfter_eq (n : Nat) : nextSidAfter n = n % u64Mod := by
  induction n with
  | zero => simp [nextSidAfter]
  | succ n ih =>
      have h1 : (1 : Nat) % u64Mod = 1 :=
        Nat.mod_eq_of_lt (by simp [u64Mod])
      calc (nextSidAfter n + 1) % u64Mod
          = (n % u64Mod + 1 % u64Mod) % u64Mod := by rw [ih, h1]
        _ = (n + 1) % u64Mod := (Nat.add_mod n 1 u64Mod).symm

/-- Counterexample to C4: the u64 counter wraps, so the `2 ^ 64`-th
`NewSession` request is answered with `SessionId(0)` — the sequence contains
zero, is not strictly increasing, and the `2 ^ 64 + 1`-th request reuses the
value 1 allocated by the first. -/
theorem sid_allocation_wraps :
    sidAt 1 = 1 ∧ sidAt u64Mod = 0 ∧ sidAt (u64Mod + 1) = 1 := by
  refine ⟨?_, ?_, ?_⟩
  · rw [sidAt, nextSidAfter_eq]
    exact Nat.mod_eq_of_lt (by simp [u64Mod])
  · rw [sidAt, nextSidAfter_eq]
    exact Nat.mod_self u64Mod
  · rw [sidAt, nextSidAfter_eq, Nat.add_mod, Nat.mod_self]
    simpa using Nat.mod_eq_of_lt (show 1 < u64Mod by simp [u64Mod])

/-- C4 (amended): within one daemon lifetime, as long as fewer than `2 ^ 64`
NewSession requests are handled, the allocated SessionIds start at 1, are
strictly monotonically increasing, are never zero, and never repeat. -/
theorem sid_allocation_monotone_before_wrap :
    sidAt 1 = 1
  ∧ ∀ i j : Nat, 0 < i → i < j → j < u64Mod → 0 < sidAt i ∧ sidAt i < sidAt j := by
  have hval : ∀ k : Nat, k < u64Mod → sidAt k = k := by
    intro k hk
    rw [sidAt, nextSidAfter_eq]
    exact Nat.mod_eq_of_lt hk
  refine ⟨hval 1 (by simp [u64Mod]), ?_⟩
  intro i j hi hij hj
  rw [hval i (by omega), hval j hj]
  exact ⟨hi, hij⟩

/-- Witness for C4 (amended): the first two allocations are 1 then 2. -/
theorem sid_allocation_monotone_before_wrap_witness :
    0 < sidAt 1 ∧ sidAt 1 < sidAt 2 :=
  sid_allocation_monotone_before_wrap.2 1 2 (by decide) (by decide)
    (by simp [u64Mod])

/-! ### AttachSession dispatch (C3, C10)

`SessionHandle::attach` begins with `assert!(self.detached)`; it then queues
a `ServerEvent::AttachRequest(channel)` on the session task's event sender
and, only if that send succeeded, sets `detached = false` (a failed send
returns early through `?`).  The panic of the assertion is modelled as
`none`; the `Bool` in the result records that the AttachRequest is now queued
toward the session task (which has not yet processed it). -/

def SessionHandle.attach (h : Handle) (deliveryOk : Bool) :
    Option (Bool × Handle) :=
  if h.detached then
    if deliveryOk then some (true, Handle.mk false h.label)
    else some (false, h)
  else none

inductive Reply
  | newSession (sid : Nat)
  | ok
  | err
deriving DecidableEq

/-- The `Request::AttachSession(sid)` arm of `Server::handle_connection`:
absent sid → reply `Err`; present but not detached → reply `Err`; otherwise
reply `NewSession(sid)` (`sendOk` is that send's success; on failure the
connection is only shut down) and call `SessionHandle::attach` on the retyped
channel.  The result is `none` on panic, otherwise the attempted reply, the
updated registry and whether an AttachRequest was queued. -/
def handleAttachSession (reg : Registry) (sid : Nat)
    (sendOk deliveryOk : Bool) : Option (Reply × Registry × Bool) :=
  match lookupSid reg sid with
  | none => some (Reply.err, reg, false)
  | some h =>
    if h.detached = false then some (Reply.err, reg, false)
    else if sendOk = false then some (Reply.newSession sid, reg, false)
    else
      match SessionHandle.attach h deliveryOk with
      | none => none
      | some q => some (Reply.newSession sid, updateSid reg sid q.2, q.1)

/-- C3: for every `AttachSession(sid)` control request (with the reply send
succeeding), an absent sid is answered `Err`; a present but non-detached
session is answered `Err`; otherwise the reply is `NewSession(sid)`, an
`AttachRequest` is queued to the session exactly when delivery succeeds, and
the handle's detached flag is cleared exactly on successful delivery. -/
theorem attach_session_dispatch_replies (reg : Registry) (sid : Nat)
    (d : Bool) :
    (lookupSid reg sid = none →
        handleAttachSession reg sid true d = some (Reply.err, reg, false))
  ∧ (∀ h, lookupSid reg sid = some h → h.detached = false →
        handleAttachSession reg sid true d = some (Reply.err, reg, false))
  ∧ (∀ h, lookupSid reg sid = some h → h.detached = true →
        handleAttachSession reg sid true d
          = some (Reply.newSession sid,
              updateSid reg sid (if d then Handle.mk false h.label else h),
              d)) := by
  refine ⟨?_, ?_, ?_⟩
  · intro hnone
    simp [handleAttachSession, hnone]
  · intro h hsome hdet
    simp [handleAttachSession, hsome, hdet]
  · intro h hsome hdet
    cases d <;> simp [handleAttachSession, hsome, hdet, SessionHandle.attach]

/-- Witness for C3: a one-session registry exercised on all three branches —
absent sid, occupied session, detached session with successful delivery. -/
theorem attach_session_dispatch_replies_witness :
    handleAttachSession [(1, Handle.mk true [])] 2 true true
      = some (Reply.err, [(1, Handle.mk true [])], false)
  ∧ handleAttachSession [(1, Handle.mk false [])] 1 true true
      = some (Reply.err, [(1, Handle.mk false [])], false)
  ∧ handleAttachSession [(1, Handle.mk true [])] 1 true true
      = some (Reply.newSession 1, [(1, Handle.mk false [])], true) :=
  ⟨(attach_session_dispatch_replies [(1, Handle.mk true [])] 2 true).1 (by decide),
   (attach_session_dispatch_replies [(1, Handle.mk false [])] 1 true).2.1
      (Handle.mk false []) (by decide) (by decide),
   (attach_session_dispatch_replies [(1, Handle.mk true [])] 1 true).2.2
      (Handle.mk true []) (by decide) (by decide)⟩

/-! ### By-alias dispatch (C7)

`AttachSessionByAlias` and `KillSessionByAlias` run
`for (sid, session) in self.sessions.iter_mut()` and act on the first entry
whose alias matches, then `return`; falling off the loop replies `Err`.  The
list order of `Registry` stands for the `HashMap`'s iteration order — which
the standard library leaves unspecified and which is randomized per map
instance, i.e. it is NOT an insertion order fixed across daemon runs. -/

/-- First alias match in iteration order. -/
def findByAlias (a : Str) : Registry → Option (Nat × Handle)
  | [] => none
  | (sid, h) :: rest =>
      if h.label = a then some (sid, h) else findByAlias a rest

/-- The `Request::AttachSessionByAlias` loop.  On the first alias match: an
occupied session replies `Err`; otherwise reply `NewSession(sid)` and, if
that send succeeded (`sendOk`), hand the channel to the session via
`SessionHandle::attach`.  A miss replies `Err`. -/
def attachByAliasLoop (a : Str) (sendOk deliveryOk : Bool) :
    Registry → Option (Reply × Registry × Bool)
  | [] => some (Reply.err, [], false)
  | (sid, h) :: rest =>
    if h.label = a then
      if h.detached = false then some (Reply.err, (sid, h) :: rest, false)
      else if sendOk = false then
        some (Reply.newSession sid, (sid, h) :: rest, false)
      else
        match SessionHandle.attach h deliveryOk with
        | none => none
        | some q => some (Reply.newSession sid, (sid, q.2) :: rest, q.1)
    else
      (attachByAliasLoop a sendOk deliveryOk rest).map fun r =>
        (r.1, (sid, h) :: r.2.1, r.2.2)

def handleAttachByAlias (reg : Registry) (a : Str) (sendOk deliveryOk : Bool) :
    Option (Reply × Registry × Bool) :=
  attachByAliasLoop a sendOk deliveryOk reg

/-- The `Request::KillSessionByAlias` loop: the first alias match receives
the `RequestTermination` event (`termOk` is that delivery's success, echoed
as `Ok`/`Err`); the second component reports which sid was targeted.  A miss
replies `Err`. -/
def killByAliasLoop (a : Str) (termOk : Bool) : Registry → Reply × Option Nat
  | [] => (Reply.err, none)
  | (sid, h) :: rest =>
    if h.label = a then ((if termOk then Reply.ok else Reply.err), some sid)
    else killByAliasLoop a termOk rest

def handleKillByAlias (reg : Registry) (a : Str) (termOk : Bool) :
    Reply × Option Nat :=
  killByAliasLoop a termOk reg

/-- Counterexample to C7: two registries holding the same sessions — sid 1
and sid 2, both aliased "a" (byte 97) — but enumerated in the two possible
iteration orders are permutations of each other, yet `KillSessionByAlias`
targets sid 1 under one order and sid 2 under the other.  The outcome is
therefore not a function of the registry contents: no fixed insertion order
governs it, and `std::collections::HashMap` fixes no such order. -/
theorem kill_by_alias_order_dependent :
    List.Perm [(1, Handle.mk true [97]), (2, Handle.mk true [97])]
      [(2, Handle.mk true [97]), (1, Handle.mk true [97])]
  ∧ (handleKillByAlias [(1, Handle.mk true [97]), (2, Handle.mk true [97])]
        [97] true).2 = some 1
  ∧ (handleKillByAlias [(2, Handle.mk true [97]), (1, Handle.mk true [97])]
        [97] true).2 = some 2 :=
  ⟨List.Perm.swap _ _ _, by decide, by decide⟩

/-- C7 (amended): both by-alias handlers act on the first session whose alias
matches in the registry's iteration order — whatever order the `HashMap`
yields — and a miss replies `Err`; which of several same-aliased sessions is
chosen depends on that unspecified order. -/
theorem by_alias_first_match_decides (reg : Registry) (a : Str)
    (t s d : Bool) :
    (findByAlias a reg = none →
        handleKillByAlias reg a t = (Reply.err, none)
      ∧ handleAttachByAlias reg a s d = some (Reply.err, reg, false))
  ∧ (∀ sid h, findByAlias a reg = some (sid, h) →
        handleKillByAlias reg a t
          = ((if t then Reply.ok else Reply.err), some sid)
      ∧ (h.detached = false →
          handleAttachByAlias reg a s d = some (Reply.err, reg, false))
      ∧ (h.detached = true →
          (handleAttachByAlias reg a true d).map (fun r => (r.1, r.2.2))
            = some (Reply.newSession sid, d))) := by
  induction reg with
  | nil =>
      refine ⟨fun _ => ⟨rfl, rfl⟩, ?_⟩
      intro sid h hfind
      simp [findByAlias] at hfind
  | cons x rest ih =>
      obtain ⟨xs, xh⟩ := x
      by_cases hm : xh.label = a
      · constructor
        · intro hfind
          simp [findByAlias, hm] at hfind
        · intro sid h hfind
          have hx : xs = sid ∧ xh = h := by
            simpa [findByAlias, hm] using hfind
          obtain ⟨rfl, rfl⟩ := hx
          refine ⟨?_, ?_, ?_⟩
          · simp [handleKillByAlias, killByAliasLoop, hm]
          · intro hdet
            simp [handleAttachByAlias, attachByAliasLoop, hm, hdet]
          · intro hdet
            cases d <;>
              simp [handleAttachByAlias, attachByAliasLoop, hm, hdet,
                SessionHandle.attach]
      · constructor
        · intro hfind
          have hrest : findByAlias a rest = none := by
            simpa [findByAlias, hm] using hfind
          have := (ih.1 hrest)
          constructor
          · simpa [handleKillByAlias, killByAliasLoop, hm] using this.1
          · have h2 := this.2
            simp only [handleAttachByAlias] at h2
            simp [handleAttachByAlias, attachByAliasLoop, hm, h2]
        · intro sid h hfind
          have hrest : findByAlias a rest = some (sid, h) := by
            simpa [findByAlias, hm] using hfind
          have := (ih.2 sid h hrest)
          refine ⟨?_, ?_, ?_⟩
          · simpa [handleKillByAlias, killByAliasLoop, hm] using this.1
          · intro hdet
            have h2 := this.2.1 hdet
            simp only [handleAttachByAlias] at h2
            simp [handleAttachByAlias, attachByAliasLoop, hm, h2]
          · intro hdet
            have h2 := this.2.2 hdet
            simp only [handleAttachByAlias] at h2
            rcases hres : attachByAliasLoop a true d rest with _ | r
            · rw [hres] at h2; simp at h2
            · rw [hres] at h2
              have h3 : (r.1, r.2.2) = (Reply.newSession sid, d) :=
                Option.some.inj h2
              simp [handleAttachByAlias, attachByAliasLoop, hm, hres]
              exact ⟨congrArg Prod.fst h3, congrArg (fun p => p.2) h3⟩

/-- Witness for C7 (amended): with sids 3 and 4 both aliased "a" in iteration
order [3, 4], kill-by-alias targets 3 and a miss on alias "b" replies Err. -/
theorem by_alias_first_match_decides_witness :
    handleKillByAlias [(3, Handle.mk true [97]), (4, Handle.mk true [97])]
        [97] true = (Reply.ok, some 3)
  ∧ handleKillByAlias [(3, Handle.mk true [97]), (4, Handle.mk true [97])]
        [98] true = (Reply.err, none) :=
  ⟨((by_alias_first_match_decides
      [(3, Handle.mk true [97]), (4, Handle.mk true [97])] [97]
      true true true).2 3 (Handle.mk true [97]) (by decide)).1,
   ((by_alias_first_match_decides
      [(3, Handle.mk true [97]), (4, Handle.mk true [97])] [98]
      true true true).1 (by decide)).1⟩

/-! ### Session events (`Server::handle_event`, C9)

Both arms look the sid up with `.unwrap()`: `Terminated` uses
`self.sessions.remove(&event.sid).unwrap()` and `ClientDetached` uses
`self.sessions.get_mut(&event.sid).unwrap()`.  An absent sid is a panic,
modelled as `none`; otherwise the registry is updated (entry removed, or its
detached flag set). -/

inductive SessionEventKind
  | terminated (expected : Bool)
  | clientDetached
deriving DecidableEq

def handleEvent (reg : Registry) (sid : Nat) (k : SessionEventKind) :
    Option Registry :=
  match k with
  | SessionEventKind.terminated _ =>
    match lookupSid reg sid with
    | none => none
    | some _ => some (reg.filter fun p => p.1 != sid)
  | SessionEventKind.clientDetached =>
    match lookupSid reg sid with
    | none => none
    | some h => some (updateSid reg sid (Handle.mk true h.label))

/-- The `StopServer` arm drains the registry before any pending session
events are processed. -/
def stopServerDrain (_reg : Registry) : Registry := []

/-- C9: `Server::handle_event` unwraps the registry lookup for both
`Terminated` and `ClientDetached`, so any session event whose sid is absent
from the registry — in particular any event arriving after `StopServer` has
drained it — panics the server, while an event whose sid is present never
does. -/
theorem handle_event_unwrap_panics_on_absent_sid (reg : Registry) (sid : Nat)
    (k : SessionEventKind) :
    (lookupSid reg sid = none → handleEvent reg sid k = none)
  ∧ (handleEvent (stopServerDrain reg) sid k = none)
  ∧ (∀ h, lookupSid reg sid = some h → handleEvent reg sid k ≠ none) := by
  refine ⟨?_, ?_, ?_⟩
  · intro hnone
    cases k <;> simp [handleEvent, hnone]
  · cases k <;> simp [handleEvent, stopServerDrain, lookupSid]
  · intro h hsome
    cases k <;> simp [handleEvent, hsome]

/-- Witness for C9: a `Terminated` event for sid 1 panics on the empty
registry and is handled on a registry containing sid 1. -/
theorem handle_event_unwrap_panics_on_absent_sid_witness :
    handleEvent [] 1 (SessionEventKind.terminated true) = none
  ∧ handleEvent [(1, Handle.mk false [])] 1 (SessionEventKind.terminated true)
      ≠ none :=
  ⟨(handle_event_unwrap_panics_on_absent_sid [] 1
      (SessionEventKind.terminated true)).1 (by decide),
   (handle_event_unwrap_panics_on_absent_sid [(1, Handle.mk false [])] 1
      (SessionEventKind.terminated true)).2.2 (Handle.mk false []) (by decide)⟩

/-- C10: `SessionHandle::attach` panics exactly when the handle's detached
flag is false; both server dispatch paths guard the call with an
`is_detached()` check, so neither `handleAttachSession` nor
`handleAttachByAlias` can reach the panic for any registry, sid, alias or
I/O outcome; and on successful delivery the handle's detached flag is
cleared at the moment the `AttachRequest` is queued — before the session
task has processed it (the queued flag in the result). -/
theorem attach_assert_guarded_on_dispatch :
    (∀ h d, SessionHandle.attach h d = none ↔ h.detached = false)
  ∧ (∀ reg sid s d, handleAttachSession reg sid s d ≠ none)
  ∧ (∀ reg a s d, handleAttachByAlias reg a s d ≠ none)
  ∧ (∀ h, h.detached = true →
      SessionHandle.attach h true = some (true, Handle.mk false h.label)) := by
  refine ⟨?_, ?_, ?_, ?_⟩
  · intro h d
    cases hdet : h.detached <;> cases d <;> simp [SessionHandle.attach, hdet]
  · intro reg sid s d
    rcases hl : lookupSid reg sid with _ | h
    · simp [handleAttachSession, hl]
    · cases hdet : h.detached <;> cases s <;> cases d <;>
        simp [handleAttachSession, hl, hdet, SessionHandle.attach]
  · intro reg a s d
    induction reg with
    | nil => simp [handleAttachByAlias, attachByAliasLoop]
    | cons x rest ih =>
        obtain ⟨xs, xh⟩ := x
        by_cases hm : xh.label = a
        · cases hdet : xh.detached <;> cases s <;> cases d <;>
            simp [handleAttachByAlias, attachByAliasLoop, hm, hdet,
              SessionHandle.attach]
        · have := ih
          simp only [handleAttachByAlias] at this
          rcases hres : attachByAliasLoop a s d rest with _ | r
          · exact absurd hres this
          · simp [handleAttachByAlias, attachByAliasLoop, hm, hres]
  · intro h hdet
    simp [SessionHandle.attach, hdet]

/-- Witness for C10: a detached handle is attached without panic, the flag
clears on queueing, and a non-detached handle is exactly the panic case. -/
theorem attach_assert_guarded_on_dispatch_witness :
    SessionHandle.attach (Handle.mk true [97]) true
      = some (true, Handle.mk false [97])
  ∧ (SessionHandle.attach (Handle.mk false []) true = none ↔
      (Handle.mk false []).detached = false)
  ∧ handleAttachSession [(1, Handle.mk true [])] 1 true true ≠ none :=
  ⟨attach_assert_guarded_on_dispatch.2.2.2 (Handle.mk true [97]) (by decide),
   attach_assert_guarded_on_dispatch.1 (Handle.mk false []) true,
   attach_assert_guarded_on_dispatch.2.1 [(1, Handle.mk true [])] 1 true true⟩
